import Mathlib

/-!
Verification of the event-coordination core of the rmpc terminal client.

The definitions below are a shallow embedding of the Rust source:
threads become folds over traces of their inputs, channels become lists,
wall-clock instants become natural numbers, and external collaborators
(the mpd connection, ytdlp, the terminal) become oracles supplied as
function-valued fields of an environment record.
-/

namespace Rmpc

/-! ## Change listener (idle_task, src/lib.rs)

The idle task owns a dedicated connection and loops on idle().  Each loop
iteration either yields a batch of subsystem events (sent one by one on the
app-event channel) or an error.  On an error the code first compares the
current error_count with 5 and breaks out of the loop when the count
exceeds 5; otherwise it increments the count and sleeps for error_count
seconds (after the increment). -/

/-- Subsystem change tags, from mpd::commands::idle::IdleEvent. -/
inductive IdleEvent where
  | mixer
  | options
  | player
  | playlist
  | storedPlaylist
  | database
  | update
  | output
  | partition
  | sticker
  | subscription
  | message
  | neighbor
  | mount
  deriving DecidableEq, Repr

/-- Result of one blocking idle() call on the dedicated connection. -/
inductive IdleOutcome where
  | ok (events : List IdleEvent)
  | err (e : String)
  deriving DecidableEq, Repr

/-- Observable state of the idle_task thread: its local error counter,
whether its loop is still running, the change-notification events it has
sent on the bus, the backoff sleeps (in seconds) it has performed, and
whether the fatal error-level log was written. -/
structure IdleTaskState where
  errorCount : Nat
  alive : Bool
  sent : List IdleEvent
  sleeps : List Nat
  fatalLogged : Bool
  deriving DecidableEq, Repr

def idleTaskInit : IdleTaskState :=
  { errorCount := 0, alive := true, sent := [], sleeps := [], fatalLogged := false }

/-- One iteration of the idle_task loop, fed with the outcome of the
idle() call.  Mirrors src/lib.rs idle_task: on Ok, forward every event;
on Err, break when error_count > 5, else increment and sleep for the new
count in seconds. -/
def idleTaskStep (s : IdleTaskState) (outcome : IdleOutcome) : IdleTaskState :=
  if s.alive then
    match outcome with
    | .ok events => { s with sent := s.sent ++ events }
    | .err _ =>
      if s.errorCount > 5 then
        { s with alive := false, fatalLogged := true }
      else
        { s with errorCount := s.errorCount + 1, sleeps := s.sleeps ++ [s.errorCount + 1] }
  else s

/-- The idle_task thread run on a whole trace of idle() outcomes. -/
def idleTaskRun (outcomes : List IdleOutcome) : IdleTaskState :=
  outcomes.foldl idleTaskStep idleTaskInit

theorem idleTaskStep_dead (s : IdleTaskState) (o : IdleOutcome) (h : s.alive = false) :
    idleTaskStep s o = s := by
  simp [idleTaskStep, h]

theorem idleTaskRun_dead_absorb (s : IdleTaskState) (h : s.alive = false)
    (rest : List IdleOutcome) : rest.foldl idleTaskStep s = s := by
  induction rest with
  | nil => rfl
  | cons o rest ih => simpa [List.foldl_cons, idleTaskStep_dead s o h] using ih

theorem idleTaskStep_ok_errorCount (s : IdleTaskState) (events : List IdleEvent) :
    (idleTaskStep s (.ok events)).errorCount = s.errorCount := by
  cases h : s.alive <;> simp [idleTaskStep, h]

/-- Claim C1 counterexample: five consecutive failed idle-wait calls, starting
from a fresh thread, do NOT terminate the change-listener loop and do not log
at error level; the loop is still alive and retrying. -/
theorem idle_task_five_failures_still_alive :
    (idleTaskRun (List.replicate 5 (IdleOutcome.err "connection reset"))).alive = true ∧
    (idleTaskRun (List.replicate 5 (IdleOutcome.err "connection reset"))).fatalLogged = false :=
  ⟨rfl, rfl⟩

/-- Claim C1 (amended): in the change-listener thread (idle_task) with no prior
failures, 7 consecutive failed idle-wait calls with no intervening success
cause the thread to log at error level and terminate its loop, after which no
further change-notification events are ever sent; for fewer than 7 consecutive
failures the loop retries, sleeping 1, 2, ..., n seconds across the failures. -/
theorem idle_task_failure_threshold (e : String) :
    (∀ n, n ≤ 6 →
      (idleTaskRun (List.replicate n (IdleOutcome.err e))).alive = true ∧
      (idleTaskRun (List.replicate n (IdleOutcome.err e))).errorCount = n ∧
      (idleTaskRun (List.replicate n (IdleOutcome.err e))).sleeps = List.range' 1 n) ∧
    (∀ n, 7 ≤ n →
      (idleTaskRun (List.replicate n (IdleOutcome.err e))).alive = false ∧
      (idleTaskRun (List.replicate n (IdleOutcome.err e))).fatalLogged = true ∧
      (idleTaskRun (List.replicate n (IdleOutcome.err e))).sleeps = [1, 2, 3, 4, 5, 6]) ∧
    (∀ rest, idleTaskRun (List.replicate 7 (IdleOutcome.err e) ++ rest) =
      idleTaskRun (List.replicate 7 (IdleOutcome.err e)) ∧
      (idleTaskRun (List.replicate 7 (IdleOutcome.err e) ++ rest)).sent = []) := by
  have h7 : List.foldl idleTaskStep idleTaskInit (List.replicate 7 (IdleOutcome.err e)) =
      { errorCount := 6, alive := false, sent := [], sleeps := [1, 2, 3, 4, 5, 6],
        fatalLogged := true } := rfl
  have habs : ∀ rest, idleTaskRun (List.replicate 7 (IdleOutcome.err e) ++ rest) =
      idleTaskRun (List.replicate 7 (IdleOutcome.err e)) := by
    intro rest
    rw [idleTaskRun, List.foldl_append, h7, idleTaskRun_dead_absorb _ rfl]
    rfl
  refine ⟨?_, ?_, ?_⟩
  · intro n hn
    interval_cases n <;> exact ⟨rfl, rfl, rfl⟩
  · intro n hn
    obtain ⟨m, rfl⟩ : ∃ m, n = 7 + m := ⟨n - 7, by omega⟩
    rw [idleTaskRun, List.replicate_add, List.foldl_append, h7,
      idleTaskRun_dead_absorb _ rfl]
    exact ⟨rfl, rfl, rfl⟩
  · intro rest
    refine ⟨habs rest, ?_⟩
    rw [habs rest, idleTaskRun, h7]

/-- Claim C1 witness: three failures leave the listener alive, eight kill it. -/
theorem idle_task_failure_threshold_witness :
    (idleTaskRun (List.replicate 3 (IdleOutcome.err "x"))).alive = true ∧
    (idleTaskRun (List.replicate 8 (IdleOutcome.err "x"))).alive = false :=
  ⟨((idle_task_failure_threshold "x").1 3 (by decide)).1,
   ((idle_task_failure_threshold "x").2.1 8 (by decide)).1⟩

/-- Claim C3 counterexample: after one failure followed by a successful
idle-wait call, the consecutive-error counter is 1, not 0: a success does not
reset the counter. -/
theorem idle_task_success_does_not_reset :
    (idleTaskRun [IdleOutcome.err "timeout", IdleOutcome.ok []]).errorCount = 1 ∧
    ¬(idleTaskRun [IdleOutcome.err "timeout", IdleOutcome.ok []]).errorCount = 0 := by
  exact ⟨rfl, by decide⟩

/-- Claim C3 (amended): in the change-listener thread (idle_task), a successful
idle-wait call leaves the consecutive-error counter unchanged (the counter is
never reset), so failures accumulate over the lifetime of the thread and the
full failure threshold is NOT restored after a success: concretely, after six
failures and then a success, a single further failure terminates the thread. -/
theorem idle_task_success_preserves_counter :
    (∀ (s : IdleTaskState) (events : List IdleEvent),
      (idleTaskStep s (.ok events)).errorCount = s.errorCount ∧
      (idleTaskStep s (.ok events)).sleeps = s.sleeps ∧
      (idleTaskStep s (.ok events)).alive = s.alive) ∧
    (idleTaskRun (List.replicate 6 (IdleOutcome.err "e") ++
      [IdleOutcome.ok [], IdleOutcome.err "e"])).alive = false := by
  refine ⟨fun s events => ?_, rfl⟩
  cases h : s.alive <;> simp [idleTaskStep, h]

/-! ## Update scheduler (RenderLoop, src/lib.rs)

RenderLoop::new creates a control channel, immediately sends a Stop signal
into it, and, when a status update interval is configured, spawns a ticker
thread.  The thread loops: (top of loop) try_recv on the control channel;
a pending Stop moves it into an inner blocking loop that discards signals
until a Start arrives; a pending Start or an empty channel lets it proceed;
it then sleeps for the interval and sends one RequestStatusUpdate app event
before returning to the top.  We model the thread as a small labelled
machine: a configuration holds the thread phase and the control-channel
contents, an action is either one thread step or a channel send performed
by the event loop, and each thread step reports how many RequestStatusUpdate
events it emitted. -/

inductive LoopEvent where
  | start
  | stop
  deriving DecidableEq, Repr

/-- Position of the ticker thread inside its loop:
atCheck = at the top, about to try_recv;
beforeTick = past the check, committed to sleep for the interval and then
send one RequestStatusUpdate;
stopped = inside the inner loop, blocked waiting for a Start. -/
inductive SchedPhase where
  | atCheck
  | beforeTick
  | stopped
  deriving DecidableEq, Repr

structure SchedConfig where
  phase : SchedPhase
  ctrl : List LoopEvent
  deriving DecidableEq, Repr

inductive SchedAction where
  | threadStep
  | send (e : LoopEvent)
  deriving DecidableEq, Repr

/-- One atomic action on the scheduler: either the event loop enqueues a
control signal, or the ticker thread takes its next step.  The returned
number counts RequestStatusUpdate events emitted by the action. -/
def schedStep (c : SchedConfig) : SchedAction → SchedConfig × Nat
  | .send e => ({ c with ctrl := c.ctrl ++ [e] }, 0)
  | .threadStep =>
    match c.phase, c.ctrl with
    | .atCheck, .stop :: rest => ({ phase := .stopped, ctrl := rest }, 0)
    | .atCheck, .start :: rest => ({ phase := .beforeTick, ctrl := rest }, 0)
    | .atCheck, [] => ({ phase := .beforeTick, ctrl := [] }, 0)
    | .stopped, .start :: rest => ({ phase := .beforeTick, ctrl := rest }, 0)
    | .stopped, .stop :: rest => ({ phase := .stopped, ctrl := rest }, 0)
    | .stopped, [] => (c, 0)
    | .beforeTick, q => ({ phase := .atCheck, ctrl := q }, 1)

/-- Run a sequence of actions, accumulating the emitted event count. -/
def schedRun (c : SchedConfig) : List SchedAction → SchedConfig × Nat
  | [] => (c, 0)
  | a :: rest =>
    let s1 := schedStep c a
    let s2 := schedRun s1.1 rest
    (s2.1, s1.2 + s2.2)

/-- Configurations reachable after a Stop has been sent with no Start after
it: the channel holds only Stop signals, and unless the thread already
reached the inner stopped loop the channel is nonempty (the Stop is still
pending). -/
def stopPending (c : SchedConfig) : Prop :=
  (∀ e ∈ c.ctrl, e = LoopEvent.stop) ∧ (c.phase ≠ SchedPhase.stopped → c.ctrl ≠ [])

/-- At most this many further emissions can happen once a Stop is pending:
one if the thread is already committed to the tick in progress, none
otherwise. -/
def schedPotential (c : SchedConfig) : Nat :=
  if c.phase = SchedPhase.beforeTick then 1 else 0

theorem schedStep_stopPending (c : SchedConfig) (a : SchedAction)
    (hinv : stopPending c) (ha : a = SchedAction.threadStep ∨ a = SchedAction.send LoopEvent.stop) :
    stopPending (schedStep c a).1 ∧
      (schedStep c a).2 + schedPotential (schedStep c a).1 ≤ schedPotential c := by
  obtain ⟨phase, ctrl⟩ := c
  obtain ⟨hall, hne⟩ := hinv
  simp only [stopPending] at hall hne
  rcases ha with rfl | rfl
  · cases phase with
    | atCheck =>
      cases ctrl with
      | nil => exact absurd rfl (hne (fun h => by cases h))
      | cons e rest =>
        obtain rfl : e = LoopEvent.stop := hall e (List.mem_cons_self e rest)
        refine ⟨⟨fun x hx => hall x (List.mem_cons_of_mem _ hx), fun h => absurd rfl h⟩, ?_⟩
        simp [schedStep, schedPotential]
    | beforeTick =>
      refine ⟨⟨hall, fun _ => hne (fun h => by cases h)⟩, ?_⟩
      simp [schedStep, schedPotential]
    | stopped =>
      cases ctrl with
      | nil =>
        refine ⟨⟨hall, fun h => absurd rfl h⟩, ?_⟩
        simp [schedStep, schedPotential]
      | cons e rest =>
        obtain rfl : e = LoopEvent.stop := hall e (List.mem_cons_self e rest)
        refine ⟨⟨fun x hx => hall x (List.mem_cons_of_mem _ hx), fun h => absurd rfl h⟩, ?_⟩
        simp [schedStep, schedPotential]
  · refine ⟨⟨fun x hx => ?_, fun _ => by simp [schedStep]⟩, ?_⟩
    · rcases List.mem_append.mp hx with h | h
      · exact hall x h
      · simpa using h
    · simp [schedStep, schedPotential]

theorem schedRun_stopPending_bound (acts : List SchedAction) :
    ∀ c : SchedConfig, stopPending c →
      (∀ a ∈ acts, a = SchedAction.threadStep ∨ a = SchedAction.send LoopEvent.stop) →
      (schedRun c acts).2 ≤ schedPotential c := by
  induction acts with
  | nil => intro c _ _; simp [schedRun]
  | cons a rest ih =>
    intro c hinv hacts
    obtain ⟨hinv1, hbound⟩ := schedStep_stopPending c a hinv (hacts a (by simp))
    have hrest := ih (schedStep c a).1 hinv1 (fun x hx => hacts x (by simp [hx]))
    simp only [schedRun]
    omega

/-- Claim C4 counterexample: with the scheduler Running and already committed
to the tick in progress (it is sleeping for the interval), a Stop arrives on
the control channel and no Start follows; the thread still emits one more
RequestStatusUpdate before it observes the Stop, so the count of refresh
events emitted after the Stop is 1, not 0. -/
theorem render_loop_stop_emits_once_more :
    (schedRun { phase := SchedPhase.beforeTick, ctrl := [LoopEvent.stop] }
      [SchedAction.threadStep]).2 = 1 ∧
    ¬(schedRun { phase := SchedPhase.beforeTick, ctrl := [LoopEvent.stop] }
      [SchedAction.threadStep]).2 = 0 := by
  decide

/-- Claim C4 (amended): sending Stop while the scheduler is Running transitions
it to Stopped, and after the Stop is sent at most one further RequestStatusUpdate
is emitted (the tick already in progress; none at all if the thread was at its
control-channel check) until a Start is sent; sending Start while already
Running is a no-op: the thread consumes the signal and its whole subsequent
behaviour is identical to the steady Running state. -/
theorem render_loop_stop_start_semantics :
    (∀ acts, (∀ a ∈ acts, a = SchedAction.threadStep ∨ a = SchedAction.send LoopEvent.stop) →
      (schedRun { phase := SchedPhase.beforeTick, ctrl := [LoopEvent.stop] } acts).2 ≤ 1 ∧
      (schedRun { phase := SchedPhase.atCheck, ctrl := [LoopEvent.stop] } acts).2 = 0) ∧
    ((schedRun { phase := SchedPhase.beforeTick, ctrl := [LoopEvent.stop] }
        [SchedAction.threadStep, SchedAction.threadStep]).1.phase = SchedPhase.stopped) ∧
    ((schedRun { phase := SchedPhase.atCheck, ctrl := [LoopEvent.stop] }
        [SchedAction.threadStep]).1.phase = SchedPhase.stopped) ∧
    (∀ acts, schedRun { phase := SchedPhase.atCheck, ctrl := [LoopEvent.start] }
        (SchedAction.threadStep :: acts) =
      schedRun { phase := SchedPhase.atCheck, ctrl := [] }
        (SchedAction.threadStep :: acts)) := by
  refine ⟨?_, rfl, rfl, fun acts => rfl⟩
  intro acts hacts
  constructor
  · have h := schedRun_stopPending_bound acts
      { phase := SchedPhase.beforeTick, ctrl := [LoopEvent.stop] }
      ⟨by simp, by simp⟩ hacts
    simpa [schedPotential] using h
  · have h := schedRun_stopPending_bound acts
      { phase := SchedPhase.atCheck, ctrl := [LoopEvent.stop] }
      ⟨by simp, by simp⟩ hacts
    simpa [schedPotential] using h

/-- Claim C4 witness: a concrete run (thread mid-tick, Stop sent, then three
thread steps and one more Stop) emits exactly one refresh event, within the
proved bound. -/
theorem render_loop_stop_start_semantics_witness :
    (schedRun { phase := SchedPhase.beforeTick, ctrl := [LoopEvent.stop] }
      [SchedAction.threadStep, SchedAction.send LoopEvent.stop, SchedAction.threadStep,
        SchedAction.threadStep]).2 ≤ 1 :=
  ((render_loop_stop_start_semantics.1
    [SchedAction.threadStep, SchedAction.send LoopEvent.stop, SchedAction.threadStep,
      SchedAction.threadStep] (by decide)).1)

/-- The RenderLoop handle held by the event loop: whether it kept the sending
half of the control channel, and the configuration of the spawned ticker
thread, if one was spawned. -/
structure RenderLoop where
  eventTx : Bool
  thread : Option SchedConfig
  deriving DecidableEq, Repr

/-- RenderLoop::new: a control channel is created and a Stop is sent into it
immediately (so the loop does not start right away); when no
status_update_interval_ms is configured the function returns before spawning
the ticker thread, with no sender kept in the handle; otherwise the thread is
spawned at the top of its loop with the initial Stop pending. -/
def RenderLoop.new (statusUpdateIntervalMs : Option Nat) : RenderLoop :=
  match statusUpdateIntervalMs with
  | none => { eventTx := false, thread := none }
  | some _ => { eventTx := true,
                thread := some { phase := SchedPhase.atCheck, ctrl := [LoopEvent.stop] } }

/-- RenderLoop::start: if a sender is held, send a Start signal (modelled by
appending to the thread's control queue) and return Ok; otherwise return Ok
without doing anything.  The last component records the signal sent, if any. -/
def RenderLoop.start (rl : RenderLoop) : RenderLoop × Except String Unit × Option LoopEvent :=
  if rl.eventTx then
    ({ rl with
        thread := rl.thread.map (fun c => { c with ctrl := c.ctrl ++ [LoopEvent.start] }) },
      Except.ok (), some LoopEvent.start)
  else (rl, Except.ok (), none)

/-- RenderLoop::stop, symmetric to start. -/
def RenderLoop.stop (rl : RenderLoop) : RenderLoop × Except String Unit × Option LoopEvent :=
  if rl.eventTx then
    ({ rl with
        thread := rl.thread.map (fun c => { c with ctrl := c.ctrl ++ [LoopEvent.stop] }) },
      Except.ok (), some LoopEvent.stop)
  else (rl, Except.ok (), none)

/-- A sequence of start (true) / stop (false) calls on the handle, collecting
the returned results and the control signals actually sent. -/
def RenderLoop.runCalls : RenderLoop → List Bool →
    RenderLoop × List (Except String Unit) × List (Option LoopEvent)
  | rl, [] => (rl, [], [])
  | rl, b :: rest =>
    let r1 := if b then rl.start else RenderLoop.stop rl
    let r2 := RenderLoop.runCalls r1.1 rest
    (r2.1, r1.2.1 :: r2.2.1, r1.2.2 :: r2.2.2)

/-- RequestStatusUpdate events the handle's ticker thread can emit under a
given schedule of actions: none at all when no thread was spawned. -/
def RenderLoop.emissions (rl : RenderLoop) (acts : List SchedAction) : Nat :=
  match rl.thread with
  | none => 0
  | some c => (schedRun c acts).2

theorem renderLoop_no_tx_start (rl : RenderLoop) (h : rl.eventTx = false) :
    rl.start = (rl, Except.ok (), none) := by
  simp [RenderLoop.start, h]

theorem renderLoop_no_tx_stop (rl : RenderLoop) (h : rl.eventTx = false) :
    RenderLoop.stop rl = (rl, Except.ok (), none) := by
  simp [RenderLoop.stop, h]

theorem renderLoop_inert_runCalls (calls : List Bool) (rl : RenderLoop)
    (h : rl.eventTx = false) :
    (RenderLoop.runCalls rl calls).1 = rl ∧
    (∀ r ∈ (RenderLoop.runCalls rl calls).2.1, r = Except.ok ()) ∧
    (∀ s ∈ (RenderLoop.runCalls rl calls).2.2, s = none) := by
  induction calls generalizing rl with
  | nil => exact ⟨rfl, by simp [RenderLoop.runCalls], by simp [RenderLoop.runCalls]⟩
  | cons b rest ih =>
    have hstep : (if b then rl.start else RenderLoop.stop rl) = (rl, Except.ok (), none) := by
      cases b <;> simp [renderLoop_no_tx_start rl h, renderLoop_no_tx_stop rl h]
    obtain ⟨ih1, ih2, ih3⟩ := ih rl h
    refine ⟨?_, ?_, ?_⟩
    · simpa [RenderLoop.runCalls, hstep] using ih1
    · intro r hr
      simp only [RenderLoop.runCalls, hstep, List.mem_cons] at hr
      rcases hr with rfl | hr
      · rfl
      · exact ih2 r hr
    · intro s hs
      simp only [RenderLoop.runCalls, hstep, List.mem_cons] at hs
      rcases hs with rfl | hs
      · rfl
      · exact ih3 s hs

/-- Claim C7: when no status-update interval is configured, the scheduler is
inert: RenderLoop::new spawns no ticker thread and keeps no control channel
sender, start() and stop() return Ok without sending any signal, the handle
never changes under any sequence of start/stop calls, and no
RequestStatusUpdate event is ever produced. -/
theorem render_loop_inert_without_interval :
    (RenderLoop.new none = { eventTx := false, thread := none }) ∧
    ((RenderLoop.new none).thread = none) ∧
    (∀ rl : RenderLoop, rl.eventTx = false →
      rl.start = (rl, Except.ok (), none) ∧ RenderLoop.stop rl = (rl, Except.ok (), none)) ∧
    (∀ calls : List Bool,
      (RenderLoop.runCalls (RenderLoop.new none) calls).1 = RenderLoop.new none ∧
      (∀ r ∈ (RenderLoop.runCalls (RenderLoop.new none) calls).2.1, r = Except.ok ()) ∧
      (∀ s ∈ (RenderLoop.runCalls (RenderLoop.new none) calls).2.2, s = none)) ∧
    (∀ (calls : List Bool) (acts : List SchedAction),
      ((RenderLoop.runCalls (RenderLoop.new none) calls).1).emissions acts = 0) := by
  refine ⟨rfl, rfl,
    fun rl h => ⟨renderLoop_no_tx_start rl h, renderLoop_no_tx_stop rl h⟩,
    fun calls => renderLoop_inert_runCalls calls _ rfl,
    fun calls acts => ?_⟩
  have h := (renderLoop_inert_runCalls calls (RenderLoop.new none) rfl).1
  rw [h]
  rfl

/-- Claim C7 witness: a concrete inert handle really ignores a start call. -/
theorem render_loop_inert_without_interval_witness :
    RenderLoop.start { eventTx := false, thread := none } =
      ({ eventTx := false, thread := none }, Except.ok (), none) :=
  (render_loop_inert_without_interval.2.2.1 { eventTx := false, thread := none } rfl).1

/-! ## Event taxonomy and the work pool (src/lib.rs) -/

/-- Severity of a status message, from ui::Level. -/
inductive Level where
  | trace
  | debug
  | warn
  | error
  | info
  deriving DecidableEq, Repr

/-- Background job requests, from the WorkRequest enum. -/
inductive WorkRequest where
  | downloadYoutube (url : String)
  deriving DecidableEq, Repr

/-- Background job outcomes, from the WorkDone enum (the constructor name
keeps the spelling used in the source). -/
inductive WorkDone where
  | youtubeDowloaded (filePath : String)
  deriving DecidableEq, Repr

/-- Outcome of ui.handle_key / ui.handle_mouse_event, from ui::KeyHandleResult. -/
inductive KeyHandleResult where
  | skipRender
  | quit
  | renderRequested
  | fullRenderRequested
  deriving DecidableEq, Repr

/-- The UI collaborator's reaction to an input event: either one of the
KeyHandleResult values or an error (which the event loop reports as a status
message and treats as a render request). -/
inductive UiReaction where
  | handled (r : KeyHandleResult)
  | errored (msg : String)
  deriving DecidableEq, Repr

/-- The event bus vocabulary, from the AppEvent enum.  Key and mouse events
carry, besides an opaque payload, the reaction the UI collaborator will give
them, since that reaction is decided outside the event loop. -/
inductive AppEvent where
  | userKeyInput (key : Nat) (reaction : UiReaction)
  | userMouseInput (ev : Nat) (reaction : UiReaction)
  | status (message : String) (level : Level)
  | log (msg : List Nat)
  | idleEvent (e : IdleEvent)
  | requestStatusUpdate
  | requestRender (full : Bool)
  | resized (columns rows : Nat)
  | workDone (result : Except String WorkDone)
  deriving Repr

/-- External collaborators of handle_work_request: the configured cache
directory, and ytdlp construction (returning a downloader on success). -/
structure WorkerEnv where
  cacheDir : Option String
  ytdlpNew : String → Except String (String → Except String String)

/-- handle_work_request (src/lib.rs): fails when no cache_dir is configured,
otherwise constructs a YtDlp downloader and downloads the url, propagating
either failure to its caller as an error value.  (The status_warn/status_info
messages it emits along the way are status events, not work results.) -/
def handleWorkRequest (env : WorkerEnv) : WorkRequest → Except String WorkDone
  | .downloadYoutube url =>
    match env.cacheDir with
    | none => Except.error "Youtube support requires cache_dir to be configured"
    | some cacheDir =>
      match env.ytdlpNew cacheDir with
      | .error e => Except.error e
      | .ok ytdlp =>
        match ytdlp url with
        | .error e => Except.error e
        | .ok filePath => Except.ok (WorkDone.youtubeDowloaded filePath)

/-- worker_task (src/lib.rs): consumes WorkRequests one at a time and sends
one WorkDone app event per request, Ok-wrapped on success and Err-wrapped on
failure.  The returned list is the stream of events sent on the bus. -/
def workerTask (env : WorkerEnv) : List WorkRequest → List AppEvent
  | [] => []
  | request :: rest =>
    match handleWorkRequest env request with
    | .ok result => AppEvent.workDone (Except.ok result) :: workerTask env rest
    | .error err => AppEvent.workDone (Except.error err) :: workerTask env rest

/-- Claim C5: for every WorkRequest it consumes, the work pool sends exactly
one WorkDone event on the event bus, carrying Ok with the result on success
and the failure wrapped as an Err payload on error; the event stream is
exactly one WorkDone event per request, in order, and failures appear only as
event data. -/
theorem worker_task_one_event_per_request (env : WorkerEnv) (requests : List WorkRequest) :
    workerTask env requests =
      requests.map (fun r => AppEvent.workDone (handleWorkRequest env r)) ∧
    (workerTask env requests).length = requests.length ∧
    (∀ e ∈ workerTask env requests, ∃ res, e = AppEvent.workDone res) := by
  have hmap : workerTask env requests =
      requests.map (fun r => AppEvent.workDone (handleWorkRequest env r)) := by
    induction requests with
    | nil => rfl
    | cons request rest ih =>
      cases h : handleWorkRequest env request <;> simp [workerTask, h, ih]
  refine ⟨hmap, by simp [hmap], ?_⟩
  intro e he
  rw [hmap] at he
  obtain ⟨r, _, rfl⟩ := List.mem_map.mp he
  exact ⟨handleWorkRequest env r, rfl⟩

/-! ## Event loop and render scheduling (main_task, src/lib.rs)

One consumption cycle of main_task: record now; receive one event (with a
timeout when a render is pending); apply the event's state transition; then,
if a render is wanted and the frame budget has elapsed since the last
render, draw and record the render timestamp.  We model a cycle as a
function of the pending-render flags, the last-render instant, the cycle's
now timestamp and the (optional) received event; a run folds cycles over a
timed trace.  Instants are naturals (nanoseconds); duration subtraction
saturates at zero exactly as Duration::saturating_sub does. -/

/-- The frame budget: min_frame_duration = 1/30 second, in nanoseconds. -/
def minFrameDurationNanos : Nat := 33333333

/-- Mutable locals of the main_task loop, plus a flag recording that the
loop was exited by a Quit result. -/
structure MainState where
  renderWanted : Bool
  fullRerenderWanted : Bool
  lastRender : Nat
  quitted : Bool
  deriving DecidableEq, Repr

/-- Initial locals: no render pending, last_render backdated by 10 seconds. -/
def mainInit (startNanos : Nat) : MainState :=
  { renderWanted := false, fullRerenderWanted := false,
    lastRender := startNanos - 10000000000, quitted := false }

/-- Effect of a key/mouse handling outcome on the loop locals; the Bool is
true when the match arm executes continue (skipping the render phase). -/
def reactionEffect (s : MainState) : UiReaction → MainState × Bool
  | .handled .skipRender => (s, true)
  | .handled .quit => ({ s with quitted := true }, true)
  | .handled .renderRequested => ({ s with renderWanted := true }, false)
  | .handled .fullRenderRequested =>
      ({ s with renderWanted := true, fullRerenderWanted := true }, false)
  | .errored _ => ({ s with renderWanted := true }, false)

/-- State transition applied for each received AppEvent, following the match
in main_task; the Bool is true when the arm skips the render phase. -/
def applyEvent (s : MainState) : AppEvent → MainState × Bool
  | .userKeyInput _ r => reactionEffect s r
  | .userMouseInput _ r => reactionEffect s r
  | .status _ _ => ({ s with renderWanted := true }, false)
  | .log _ => (s, false)
  | .idleEvent _ => ({ s with renderWanted := true }, false)
  | .requestStatusUpdate => ({ s with renderWanted := true }, false)
  | .requestRender full => ({ s with renderWanted := true, fullRerenderWanted := full }, false)
  | .workDone _ => (s, false)
  | .resized _ _ => ({ s with fullRerenderWanted := true, renderWanted := true }, false)

/-- The render phase at the bottom of a cycle: if a render is wanted and
budget.saturating_sub (now - last_render) is zero, perform the render, record
the timestamp and clear both flags; otherwise defer.  The Bool reports
whether a render was performed. -/
def renderPhase (budget : Nat) (s : MainState) (t : Nat) : MainState × Bool :=
  if s.renderWanted then
    if budget - (t - s.lastRender) ≠ 0 then (s, false)
    else ({ s with renderWanted := false, fullRerenderWanted := false, lastRender := t }, true)
  else (s, false)

/-- One full consumption cycle at timestamp t with the received event (none
models a receive timeout, which falls through to the render phase). -/
def mainCycle (budget : Nat) (s : MainState) (t : Nat) (ev : Option AppEvent) :
    MainState × Bool :=
  if s.quitted then (s, false)
  else
    match ev with
    | some e =>
      let se := applyEvent s e
      if se.2 then (se.1, false) else renderPhase budget se.1 t
    | none => renderPhase budget s t

/-- Run the loop over a timed trace of cycles, collecting the timestamps of
the performed renders. -/
def mainRun (budget : Nat) (s : MainState) : List (Nat × Option AppEvent) → MainState × List Nat
  | [] => (s, [])
  | (t, ev) :: rest =>
    let c := mainCycle budget s t ev
    let r := mainRun budget c.1 rest
    (r.1, (if c.2 then [t] else []) ++ r.2)

/-- Input events whose match arm executes continue without reaching the
render phase. -/
def eventSkips : AppEvent → Bool
  | .userKeyInput _ (.handled .skipRender) => true
  | .userMouseInput _ (.handled .skipRender) => true
  | _ => false

/-- Input events whose match arm breaks out of the loop. -/
def eventQuits : AppEvent → Bool
  | .userKeyInput _ (.handled .quit) => true
  | .userMouseInput _ (.handled .quit) => true
  | _ => false

theorem applyEvent_lastRender (s : MainState) (e : AppEvent) :
    (applyEvent s e).1.lastRender = s.lastRender := by
  cases e with
  | userKeyInput k r => cases r with
    | handled h => cases h <;> rfl
    | errored m => rfl
  | userMouseInput k r => cases r with
    | handled h => cases h <;> rfl
    | errored m => rfl
  | _ => rfl

theorem applyEvent_renderWanted (s : MainState) (e : AppEvent) (h : s.renderWanted = true) :
    (applyEvent s e).1.renderWanted = true := by
  cases e with
  | userKeyInput k r => cases r with
    | handled hr => cases hr <;> simp [applyEvent, reactionEffect] <;> exact h
    | errored m => rfl
  | userMouseInput k r => cases r with
    | handled hr => cases hr <;> simp [applyEvent, reactionEffect] <;> exact h
    | errored m => rfl
  | log m => simpa [applyEvent]
  | workDone res => simpa [applyEvent]
  | _ => rfl

theorem applyEvent_no_skip_quit (s : MainState) (e : AppEvent)
    (hs : eventSkips e = false) (hq : eventQuits e = false) :
    (applyEvent s e).2 = false ∧ (applyEvent s e).1.quitted = s.quitted := by
  cases e with
  | userKeyInput k r =>
    cases r with
    | handled hr => cases hr <;> simp_all [eventSkips, eventQuits, applyEvent, reactionEffect]
    | errored m => exact ⟨rfl, rfl⟩
  | userMouseInput k r =>
    cases r with
    | handled hr => cases hr <;> simp_all [eventSkips, eventQuits, applyEvent, reactionEffect]
    | errored m => exact ⟨rfl, rfl⟩
  | _ => exact ⟨rfl, rfl⟩

theorem applyEvent_skip_cases (s : MainState) (e : AppEvent)
    (h : (applyEvent s e).2 = true) :
    (applyEvent s e).1 = s ∨ (applyEvent s e).1.quitted = true := by
  cases e with
  | userKeyInput k r =>
    cases r with
    | handled hr =>
      cases hr with
      | skipRender => exact Or.inl rfl
      | quit => exact Or.inr rfl
      | renderRequested => simp [applyEvent, reactionEffect] at h
      | fullRenderRequested => simp [applyEvent, reactionEffect] at h
    | errored m => simp [applyEvent, reactionEffect] at h
  | userMouseInput k r =>
    cases r with
    | handled hr =>
      cases hr with
      | skipRender => exact Or.inl rfl
      | quit => exact Or.inr rfl
      | renderRequested => simp [applyEvent, reactionEffect] at h
      | fullRenderRequested => simp [applyEvent, reactionEffect] at h
    | errored m => simp [applyEvent, reactionEffect] at h
  | status m l => simp [applyEvent] at h
  | log m => simp [applyEvent] at h
  | idleEvent e => simp [applyEvent] at h
  | requestStatusUpdate => simp [applyEvent] at h
  | requestRender full => simp [applyEvent] at h
  | workDone res => simp [applyEvent] at h
  | resized c r => simp [applyEvent] at h

theorem renderPhase_no_render (budget : Nat) (s : MainState) (t : Nat)
    (h : (renderPhase budget s t).2 = false) :
    (renderPhase budget s t).1 = s := by
  by_cases hw : s.renderWanted
  · by_cases hz : budget - (t - s.lastRender) ≠ 0
    · simp [renderPhase, hw, hz]
    · simp [renderPhase, hw, hz] at h
  · simp [renderPhase, hw]

theorem renderPhase_render (budget : Nat) (hb : 0 < budget) (s : MainState) (t : Nat)
    (h : (renderPhase budget s t).2 = true) :
    s.lastRender + budget ≤ t ∧
    (renderPhase budget s t).1.lastRender = t := by
  by_cases hw : s.renderWanted
  · by_cases hz : budget - (t - s.lastRender) ≠ 0
    · simp [renderPhase, hw, hz] at h
    · refine ⟨by omega, by simp [renderPhase, hw, hz]⟩
  · simp [renderPhase, hw] at h

theorem mainCycle_no_render_lastRender (budget : Nat) (s : MainState) (t : Nat)
    (ev : Option AppEvent) (h : (mainCycle budget s t ev).2 = false) :
    (mainCycle budget s t ev).1.lastRender = s.lastRender := by
  by_cases hq : s.quitted
  · simp [mainCycle, hq]
  · cases ev with
    | none =>
      have h' : (renderPhase budget s t).2 = false := by simpa [mainCycle, hq] using h
      simpa [mainCycle, hq] using congrArg MainState.lastRender (renderPhase_no_render budget s t h')
    | some e =>
      by_cases hsk : (applyEvent s e).2
      · simp [mainCycle, hq, hsk, applyEvent_lastRender]
      · have h' : (renderPhase budget (applyEvent s e).1 t).2 = false := by
          simpa [mainCycle, hq, hsk] using h
        have := congrArg MainState.lastRender (renderPhase_no_render budget (applyEvent s e).1 t h')
        simpa [mainCycle, hq, hsk, applyEvent_lastRender] using this

theorem mainCycle_render_facts (budget : Nat) (hb : 0 < budget) (s : MainState) (t : Nat)
    (ev : Option AppEvent) (h : (mainCycle budget s t ev).2 = true) :
    s.lastRender + budget ≤ t ∧ (mainCycle budget s t ev).1.lastRender = t := by
  by_cases hq : s.quitted
  · simp [mainCycle, hq] at h
  · cases ev with
    | none =>
      have h' : (renderPhase budget s t).2 = true := by simpa [mainCycle, hq] using h
      obtain ⟨h1, h2⟩ := renderPhase_render budget hb s t h'
      exact ⟨h1, by simpa [mainCycle, hq] using h2⟩
    | some e =>
      by_cases hsk : (applyEvent s e).2
      · simp [mainCycle, hq, hsk] at h
      · have h' : (renderPhase budget (applyEvent s e).1 t).2 = true := by
          simpa [mainCycle, hq, hsk] using h
        obtain ⟨h1, h2⟩ := renderPhase_render budget hb (applyEvent s e).1 t h'
        rw [applyEvent_lastRender] at h1
        exact ⟨h1, by simpa [mainCycle, hq, hsk] using h2⟩

theorem mainRun_renders_bound (budget : Nat) (hb : 0 < budget) :
    ∀ (tr : List (Nat × Option AppEvent)) (s : MainState),
      List.Pairwise (fun a b => a + budget ≤ b) (mainRun budget s tr).2 ∧
      (∀ x ∈ (mainRun budget s tr).2, s.lastRender + budget ≤ x) := by
  intro tr
  induction tr with
  | nil => intro s; simp [mainRun]
  | cons cyc rest ih =>
    intro s
    obtain ⟨t, ev⟩ := cyc
    by_cases hr : (mainCycle budget s t ev).2
    · obtain ⟨hle, hlr⟩ := mainCycle_render_facts budget hb s t ev hr
      obtain ⟨ihp, ihb⟩ := ih (mainCycle budget s t ev).1
      rw [hlr] at ihb
      constructor
      · simp only [mainRun, hr, if_true, List.singleton_append]
        exact List.Pairwise.cons (fun x hx => by have := ihb x hx; omega) ihp
      · intro x hx
        simp only [mainRun, hr, if_true, List.singleton_append, List.mem_cons] at hx
        rcases hx with rfl | hx
        · exact hle
        · have := ihb x hx; omega
    · have hlr := mainCycle_no_render_lastRender budget s t ev (by simpa using hr)
      obtain ⟨ihp, ihb⟩ := ih (mainCycle budget s t ev).1
      rw [hlr] at ihb
      constructor
      · simpa only [mainRun, hr, if_false, List.nil_append] using ihp
      · intro x hx
        exact ihb x (by simpa only [mainRun, hr, if_false, List.nil_append] using hx)

/-- Claim C2: in the event loop (main_task), (1) any two performed renders
are separated by at least the frame budget (in particular at most one render
is performed within any frame-budget window), so N render-requesting events
within one window yield at most one render for it; (2) once the budget has
elapsed since the last render, a cycle whose event does not skip the render
phase or quit performs the pending render; (3) a pending render request is
never lost: a cycle that does not render and does not quit leaves the
render-pending flag set.  Together these give exactly one render per
frame-budget window holding pending requests.  The theorem holds for every
positive budget, in particular min_frame_duration = 1/30 s. -/
theorem main_task_frame_pacing (budget : Nat) (hb : 0 < budget) :
    (∀ (s : MainState) (tr : List (Nat × Option AppEvent)),
      List.Pairwise (fun a b => a + budget ≤ b) (mainRun budget s tr).2) ∧
    (∀ (s : MainState) (t : Nat) (ev : Option AppEvent),
      s.quitted = false → s.renderWanted = true → s.lastRender + budget ≤ t →
      (ev = none ∨ ∃ e, ev = some e ∧ eventSkips e = false ∧ eventQuits e = false) →
      (mainCycle budget s t ev).2 = true) ∧
    (∀ (s : MainState) (t : Nat) (ev : Option AppEvent),
      s.renderWanted = true → (mainCycle budget s t ev).2 = false →
      (mainCycle budget s t ev).1.quitted = true ∨
        (mainCycle budget s t ev).1.renderWanted = true) := by
  refine ⟨fun s tr => (mainRun_renders_bound budget hb tr s).1, ?_, ?_⟩
  · intro s t ev hq hw hle hev
    have hfire : (renderPhase budget s t).2 = true := by
      simp [renderPhase, hw, show budget - (t - s.lastRender) = 0 by omega]
    rcases hev with rfl | ⟨e, rfl, hs, hqt⟩
    · simpa [mainCycle, hq] using hfire
    · obtain ⟨hskip, _⟩ := applyEvent_no_skip_quit s e hs hqt
      have hw' := applyEvent_renderWanted s e hw
      have hlr := applyEvent_lastRender s e
      have hfire' : (renderPhase budget (applyEvent s e).1 t).2 = true := by
        simp [renderPhase, hw', hlr, show budget - (t - s.lastRender) = 0 by omega]
      simpa [mainCycle, hq, hskip] using hfire'
  · intro s t ev hw hnor
    by_cases hq : s.quitted
    · right; simpa [mainCycle, hq] using hw
    · cases ev with
      | none =>
        right
        have h' : (renderPhase budget s t).2 = false := by simpa [mainCycle, hq] using hnor
        have hexp : (mainCycle budget s t none).1 = (renderPhase budget s t).1 := by
          simp [mainCycle, hq]
        rw [hexp, renderPhase_no_render budget s t h']
        exact hw
      | some e =>
        by_cases hsk : (applyEvent s e).2 = true
        · rcases applyEvent_skip_cases s e hsk with heq | hqt
          · right
            have hexp : (mainCycle budget s t (some e)).1 = (applyEvent s e).1 := by
              simp [mainCycle, hq, hsk]
            rw [hexp, heq]
            exact hw
          · left
            have hexp : (mainCycle budget s t (some e)).1 = (applyEvent s e).1 := by
              simp [mainCycle, hq, hsk]
            rw [hexp]
            exact hqt
        · right
          have hexp1 : (mainCycle budget s t (some e)).1 =
              (renderPhase budget (applyEvent s e).1 t).1 := by
            simp [mainCycle, hq, hsk]
          have hexp2 : (mainCycle budget s t (some e)).2 =
              (renderPhase budget (applyEvent s e).1 t).2 := by
            simp [mainCycle, hq, hsk]
          rw [hexp2] at hnor
          rw [hexp1, renderPhase_no_render budget (applyEvent s e).1 t hnor]
          exact applyEvent_renderWanted s e hw

/-- Claim C2 witness: three render requests inside one 1/30 s window produce
one render, and a request in the next window produces exactly one more,
33333333 ns later. -/
theorem main_task_frame_pacing_witness :
    List.Pairwise (fun a b => a + minFrameDurationNanos ≤ b)
      (mainRun minFrameDurationNanos (mainInit 20000000000)
        [(20000000000, some (AppEvent.requestRender false)),
         (20000001000, some (AppEvent.requestRender false)),
         (20000002000, some AppEvent.requestStatusUpdate),
         (20053333333, some (AppEvent.requestRender false)),
         (20053334000, none)]).2 ∧
    (mainCycle minFrameDurationNanos
      { renderWanted := true, fullRerenderWanted := false,
        lastRender := 20000000000, quitted := false }
      20033333333 none).2 = true :=
  ⟨(main_task_frame_pacing minFrameDurationNanos (by decide)).1 (mainInit 20000000000) _,
   (main_task_frame_pacing minFrameDurationNanos (by decide)).2.1 _ 20033333333 none
     rfl rfl (by decide) (Or.inl rfl)⟩

/-! ## Album art pane (src/ui/panes/album_art.rs)

fetch_album_art inspects the configured image protocol, the current song in
the queue and the disabled-protocol list, and either declines (None) or
issues exactly one query against the client worker, built as
query().id(ALBUM_ART).replace_id(ALBUM_ART).target(PaneType::AlbumArt) with
a closure running find_album_art on the song uri.  The query correlation and
replacement machinery itself lives in the client session worker, outside
these sources; it is modelled from the spec below. -/

/-- Image backends, from shared::image::ImageProtocol. -/
inductive ImageProtocol where
  | none
  | kitty
  | ueberzugWayland
  | ueberzugX11
  | iterm2
  | sixel
  deriving DecidableEq, Repr

/-- Pane identifiers, from config::tabs::PaneType (the variants relevant
here). -/
inductive PaneType where
  | queue
  | albumArt
  | directories
  | playlists
  deriving DecidableEq, Repr

/-- The part of a queue song used by fetch_album_art. -/
structure Song where
  file : String
  deriving DecidableEq, Repr

structure AlbumArtSettings where
  method : ImageProtocol
  disabledProtocols : List String
  deriving DecidableEq, Repr

/-- The part of the AppContext read by fetch_album_art: the album-art
configuration and the result of find_current_song_in_queue. -/
structure FetchContext where
  albumArt : AlbumArtSettings
  currentSongInQueue : Option (Nat × Song)
  deriving DecidableEq, Repr

/-- The correlation id constant ALBUM_ART. -/
def ALBUM_ART : String := "album_art"

/-- A query sent to the client session worker: correlation id, replace id,
target pane, and the song uri captured by the query closure (which runs
find_album_art on it). -/
structure MpdQuery where
  id : String
  replaceId : Option String
  target : Option PaneType
  songUri : String
  deriving DecidableEq, Repr

/-- AlbumArtPane::fetch_album_art: returns none (art hidden) when the image
protocol is None, when no current song is in the queue, or when the song uri
starts with a disabled protocol; otherwise issues exactly one album-art
query. -/
def fetchAlbumArt (context : FetchContext) : Option MpdQuery :=
  if context.albumArt.method = ImageProtocol.none then none
  else
    match context.currentSongInQueue with
    | Option.none => Option.none
    | some (_, currentSong) =>
      if context.albumArt.disabledProtocols.any
          (fun proto => currentSong.file.startsWith proto) then
        Option.none
      else
        some { id := ALBUM_ART, replaceId := some ALBUM_ART,
               target := some PaneType.albumArt, songUri := currentSong.file }

/-- What the album-art facade currently shows. -/
inductive AlbumArtDisplay where
  | artwork (data : List Nat)
  | defaultArt
  deriving DecidableEq, Repr

/-- Query result payloads, from MpdQueryResult (the variants relevant to
this pane). -/
inductive MpdQueryResult where
  | albumArt (data : Option (List Nat))
  | other
  deriving DecidableEq, Repr

/-- AlbumArtPane::on_query_finished: album-art results for the ALBUM_ART id
update the facade (data or the default placeholder); anything else is
ignored. -/
def onQueryFinished (display : AlbumArtDisplay) (id : String) (data : MpdQueryResult) :
    AlbumArtDisplay :=
  if id = ALBUM_ART then
    match data with
    | .albumArt (some d) => .artwork d
    | .albumArt Option.none => .defaultArt
    | .other => display
  else display

/-- AlbumArtPane::before_show (and the SongChanged/Reconnected arm of
on_event when the pane is visible): fetch the album art; when the fetch
declines, show the default placeholder.  Returns the new display and the
query issued, if any. -/
def beforeShow (context : FetchContext) (display : AlbumArtDisplay) :
    AlbumArtDisplay × Option MpdQuery :=
  match fetchAlbumArt context with
  | Option.none => (AlbumArtDisplay.defaultArt, Option.none)
  | some q => (display, some q)

/-- Modelled from the spec: the client session worker and its pending-query
channel are not part of these sources.  Per the spec, a query carrying a
replace id supersedes any pending query with that correlation id: any
not-yet-delivered result for the replaced id must be discarded by the
receiver, so issuing removes pending queries with that id and appends the
new query. -/
def issueQuery (pending : List MpdQuery) (q : MpdQuery) : List MpdQuery :=
  (match q.replaceId with
   | some r => pending.filter (fun p => p.id != r)
   | Option.none => pending) ++ [q]

/-- The result the client worker computes for a pending query, given an
oracle for find_album_art on each song uri. -/
def queryResult (artOf : String → Option (List Nat)) (q : MpdQuery) : MpdQueryResult :=
  if q.id = ALBUM_ART then .albumArt (artOf q.songUri) else .other

/-- Deliver the results of all still-pending queries, in order, to the
pane. -/
def deliverAll (artOf : String → Option (List Nat)) (pending : List MpdQuery)
    (display : AlbumArtDisplay) : AlbumArtDisplay :=
  pending.foldl (fun d q => onQueryFinished d q.id (queryResult artOf q)) display

theorem fetchAlbumArt_fields (context : FetchContext) (q : MpdQuery)
    (h : fetchAlbumArt context = some q) :
    q.id = ALBUM_ART ∧ q.replaceId = some ALBUM_ART ∧ q.target = some PaneType.albumArt := by
  by_cases hm : context.albumArt.method = ImageProtocol.none
  · simp [fetchAlbumArt, hm] at h
  · cases hs : context.currentSongInQueue with
    | none => simp [fetchAlbumArt, hm, hs] at h
    | some pair =>
      obtain ⟨idx, song⟩ := pair
      by_cases hd : context.albumArt.disabledProtocols.any
          (fun proto => song.file.startsWith proto)
      · simp [fetchAlbumArt, hm, hs, hd] at h
      · simp only [fetchAlbumArt, hm, if_false, hs, hd, Bool.false_eq_true,
          Option.some.injEq] at h
        rcases h with rfl
        exact ⟨rfl, rfl, rfl⟩

theorem deliverAll_ignores_foreign (artOf : String → Option (List Nat)) :
    ∀ (l : List MpdQuery) (display : AlbumArtDisplay),
      (∀ p ∈ l, ¬p.id = ALBUM_ART) → deliverAll artOf l display = display := by
  intro l
  induction l with
  | nil => intro display _; rfl
  | cons p rest ih =>
    intro display hall
    have hp : ¬p.id = ALBUM_ART := hall p (List.mem_cons_self p rest)
    have hstep : onQueryFinished display p.id (queryResult artOf p) = display := by
      simp [onQueryFinished, queryResult, hp]
    calc deliverAll artOf (p :: rest) display
        = deliverAll artOf rest (onQueryFinished display p.id (queryResult artOf p)) := rfl
      _ = display := by rw [hstep]; exact ih display (fun x hx => hall x (List.mem_cons_of_mem _ hx))

/-- Claim C6: every album-art fetch issues exactly one query whose
correlation id is the constant "album_art", whose replace id equals that
same id, and whose target is the album-art pane; consequently, after a fetch
for song A is superseded by a fetch for song B, the only still-pending
album-art query is B's, and delivering all pending results leaves the pane
showing B's art or the default placeholder — never A's.  When the fetch
declines, the pane shows the default placeholder and no query is issued. -/
theorem album_art_query_supersession (ctxA ctxB : FetchContext) (qA qB : MpdQuery)
    (pending : List MpdQuery) (display : AlbumArtDisplay)
    (artOf : String → Option (List Nat))
    (hA : fetchAlbumArt ctxA = some qA) (hB : fetchAlbumArt ctxB = some qB) :
    (qA.id = "album_art" ∧ qA.replaceId = some "album_art" ∧
      qA.target = some PaneType.albumArt) ∧
    (qB.id = "album_art" ∧ qB.replaceId = some "album_art" ∧
      qB.target = some PaneType.albumArt) ∧
    ((issueQuery (issueQuery pending qA) qB).filter (fun p => p.id == "album_art") = [qB]) ∧
    (deliverAll artOf (issueQuery (issueQuery pending qA) qB) display =
      match artOf qB.songUri with
      | some d => AlbumArtDisplay.artwork d
      | Option.none => AlbumArtDisplay.defaultArt) ∧
    (beforeShow ctxB display = (display, some qB)) ∧
    (∀ ctx d, fetchAlbumArt ctx = Option.none →
      beforeShow ctx d = (AlbumArtDisplay.defaultArt, Option.none)) := by
  obtain ⟨hAid, hArep, hAtgt⟩ := fetchAlbumArt_fields ctxA qA hA
  obtain ⟨hBid, hBrep, hBtgt⟩ := fetchAlbumArt_fields ctxB qB hB
  have hfilter : (issueQuery (issueQuery pending qA) qB).filter
      (fun p => p.id == "album_art") = [qB] := by
    simp only [issueQuery, hBrep, hArep, ALBUM_ART]
    rw [List.filter_append, List.filter_filter]
    have h2 : (List.filter (fun a => (a.id == "album_art") && (a.id != "album_art"))
        (pending.filter (fun p => p.id != "album_art") ++ [qA])) = [] := by
      refine List.filter_eq_nil_iff.mpr (fun a _ => ?_)
      by_cases hp : a.id = "album_art" <;> simp [hp]
    rw [h2]
    simp [hBid, ALBUM_ART]
  refine ⟨⟨hAid, hArep, hAtgt⟩, ⟨hBid, hBrep, hBtgt⟩, hfilter, ?_, ?_, ?_⟩
  · simp only [issueQuery, hBrep, hArep, ALBUM_ART]
    have hforeign : ∀ p ∈ (List.filter (fun p => p.id != "album_art")
          (pending.filter (fun p => p.id != "album_art") ++ [qA])),
        ¬p.id = ALBUM_ART := by
      intro p hp
      have := (List.mem_filter.mp hp).2
      simpa [ALBUM_ART] using this
    rw [show deliverAll artOf
        ((List.filter (fun p => p.id != "album_art")
          (pending.filter (fun p => p.id != "album_art") ++ [qA])) ++ [qB]) display =
        deliverAll artOf [qB]
          (deliverAll artOf
            (List.filter (fun p => p.id != "album_art")
              (pending.filter (fun p => p.id != "album_art") ++ [qA])) display) from
      (List.foldl_append _ _ _ _)]
    rw [deliverAll_ignores_foreign artOf _ display hforeign]
    show onQueryFinished display qB.id (queryResult artOf qB) = _
    cases hart : artOf qB.songUri <;>
      simp [onQueryFinished, queryResult, hBid, ALBUM_ART, hart]
  · simp [beforeShow, hB]
  · intro ctx d h
    simp [beforeShow, h]

/-- Claim C6 witness: song "a.mp3" fetched, then superseded by "b.mp3";
the pane ends up showing the art returned for "b.mp3". -/
theorem album_art_query_supersession_witness :
    deliverAll (fun s => if s = "b.mp3" then some [1, 2] else some [9])
      (issueQuery
        (issueQuery []
          { id := "album_art", replaceId := some "album_art",
            target := some PaneType.albumArt, songUri := "a.mp3" })
        { id := "album_art", replaceId := some "album_art",
          target := some PaneType.albumArt, songUri := "b.mp3" })
      AlbumArtDisplay.defaultArt = AlbumArtDisplay.artwork [1, 2] :=
  (album_art_query_supersession
    { albumArt := { method := ImageProtocol.kitty, disabledProtocols := [] },
      currentSongInQueue := some (0, { file := "a.mp3" }) }
    { albumArt := { method := ImageProtocol.kitty, disabledProtocols := [] },
      currentSongInQueue := some (0, { file := "b.mp3" }) }
    _ _ [] AlbumArtDisplay.defaultArt _ rfl rfl).2.2.2.1

/-! ## Mpd client (src/mpd/mpd_client.rs)

The client methods format a protocol command, send it over the connection
and parse the response.  We model the connection as an oracle mapping each
command string to the parsed response the server would give, and each method
returns its result together with the list of command strings actually sent,
so that fail-fast paths (which send nothing) are observable. -/

/-- Modelled from the spec: mpd::errors::ErrorCode is not among these
sources; of the protocol error codes only NoExist is distinguished by the
code under verification, the others are opaque. -/
inductive ErrorCode where
  | noExist
  | permissionDenied
  | unknownCmd
  | argError
  deriving DecidableEq, Repr

structure MpdFailureResponse where
  code : ErrorCode
  message : String
  deriving DecidableEq, Repr

/-- Modelled from the spec: mpd::errors::MpdError is not among these
sources; a failure is either a protocol ACK with a code, a client-side
UnsupportedMpdVersion error, or some other client error. -/
inductive MpdError where
  | mpd (r : MpdFailureResponse)
  | unsupportedMpdVersion (msg : String)
  | clientError (msg : String)
  deriving DecidableEq, Repr

/-- Modelled from the spec: mpd::version::Version is not among these
sources; a major/minor/patch triple compared lexicographically (Rust's
derived PartialOrd compares struct fields in declaration order). -/
structure Version where
  major : Nat
  minor : Nat
  patch : Nat
  deriving DecidableEq, Repr

def Version.lt (a b : Version) : Bool :=
  decide (a.major < b.major) ||
    (a.major == b.major &&
      (decide (a.minor < b.minor) || (a.minor == b.minor && decide (a.patch < b.patch))))

/-- From mpd::commands::status::OnOffOneshot; the wire values are the ones
to_mpd_value produces. -/
inductive OnOffOneshot where
  | on
  | off
  | oneshot
  deriving DecidableEq, Repr

def OnOffOneshot.toMpdValue : OnOffOneshot → String
  | .on => "1"
  | .off => "0"
  | .oneshot => "oneshot"

/-- SingleOrRange from mpd_client.rs; the source field named end is a Lean
keyword and is called endPos here. -/
structure SingleOrRange where
  start : Nat
  endPos : Option Nat
  deriving DecidableEq, Repr

def SingleOrRange.asMpdRange (r : SingleOrRange) : String :=
  match r.endPos with
  | some e => "\"" ++ toString r.start ++ ":" ++ toString e ++ "\""
  | Option.none => "\"" ++ toString r.start ++ "\""

/-- SaveMode from mpd_client.rs, with its strum serializations. -/
inductive SaveMode where
  | create
  | append
  | replace
  deriving DecidableEq, Repr

def SaveMode.asRef : SaveMode → String
  | .create => "create"
  | .append => "append"
  | .replace => "replace"

/-- The connection oracle: the negotiated protocol version plus the parsed
response the server gives to each command, by result shape. -/
structure ClientModel where
  version : Version
  responseOk : String → Except MpdError Unit
  responseVolume : String → Except MpdError Nat
  responseSongs : String → Except MpdError (List Song)
  albumartResult : String → Except MpdError (Option (List Nat))
  readPictureResult : String → Except MpdError (Option (List Nat))

def albumartCmd (path : String) : String := "albumart \"" ++ path ++ "\" 0"

def readPictureCmd (path : String) : String := "readpicture \"" ++ path ++ "\" 0"

/-- get_volume: fail fast client-side below MPD 0.23.0, otherwise send
getvol. -/
def getVolume (c : ClientModel) : Except MpdError Nat × List String :=
  if Version.lt c.version { major := 0, minor := 23, patch := 0 } then
    (Except.error (MpdError.unsupportedMpdVersion "getvol can be used since MPD 0.23.0"), [])
  else
    (c.responseVolume "getvol", ["getvol"])

/-- consume: fail fast client-side below MPD 0.24.0 when asked for the
oneshot value, otherwise send the consume command. -/
def consume (c : ClientModel) (v : OnOffOneshot) : Except MpdError Unit × List String :=
  if Version.lt c.version { major := 0, minor := 24, patch := 0 } && decide (v = OnOffOneshot.oneshot) then
    (Except.error (MpdError.unsupportedMpdVersion "consume oneshot can be used since MPD 0.24.0"), [])
  else
    (c.responseOk ("consume " ++ v.toMpdValue), ["consume " ++ v.toMpdValue])

/-- list_playlist_info: a range argument fails fast client-side below MPD
0.24.0; otherwise the command is sent, with or without the range. -/
def listPlaylistInfo (c : ClientModel) (playlist : String) (range : Option SingleOrRange) :
    Except MpdError (List Song) × List String :=
  match range with
  | some r =>
    if Version.lt c.version { major := 0, minor := 24, patch := 0 } then
      (Except.error
        (MpdError.unsupportedMpdVersion "listplaylistinfo with range can only be used since MPD 0.24.0"),
        [])
    else
      (c.responseSongs ("listplaylistinfo \"" ++ playlist ++ "\" " ++ r.asMpdRange),
        ["listplaylistinfo \"" ++ playlist ++ "\" " ++ r.asMpdRange])
  | Option.none =>
    (c.responseSongs ("listplaylistinfo \"" ++ playlist ++ "\""),
      ["listplaylistinfo \"" ++ playlist ++ "\""])

/-- save_queue_as_playlist: a save mode fails fast client-side below MPD
0.24.0; otherwise the save command is sent, with or without the mode. -/
def saveQueueAsPlaylist (c : ClientModel) (name : String) (mode : Option SaveMode) :
    Except MpdError Unit × List String :=
  match mode with
  | some m =>
    if Version.lt c.version { major := 0, minor := 24, patch := 0 } then
      (Except.error (MpdError.unsupportedMpdVersion "save mode can be used since MPD 0.24.0"), [])
    else
      (c.responseOk ("save \"" ++ name ++ "\" \"" ++ m.asRef ++ "\""),
        ["save \"" ++ name ++ "\" \"" ++ m.asRef ++ "\""])
  | Option.none =>
    (c.responseOk ("save \"" ++ name ++ "\""), ["save \"" ++ name ++ "\""])

/-- The error pattern MpdError::Mpd(MpdFailureResponse with code NoExist). -/
def isNoExist : MpdError → Bool
  | .mpd r => decide (r.code = ErrorCode.noExist)
  | _ => false

/-- The read_picture fallback stage of find_album_art: art, no art, NoExist
treated as no art (debug log), any other failure reported as a status
message; in every case an Ok value. -/
def readPictureStage (c : ClientModel) (path : String) : Except MpdError (Option (List Nat)) :=
  match c.readPictureResult path with
  | .ok (some p) => Except.ok (some p)
  | .ok Option.none => Except.ok Option.none
  | .error e =>
    if isNoExist e then Except.ok Option.none
    else Except.ok Option.none

/-- find_album_art: try albumart first; on Ok(None) or a NoExist failure
fall back to readpicture; any other albumart failure is reported as a status
message and mapped to Ok(None). -/
def findAlbumArt (c : ClientModel) (path : String) :
    Except MpdError (Option (List Nat)) × List String :=
  match c.albumartResult path with
  | .ok (some v) => (Except.ok (some v), [albumartCmd path])
  | .ok Option.none => (readPictureStage c path, [albumartCmd path, readPictureCmd path])
  | .error e =>
    if isNoExist e then (readPictureStage c path, [albumartCmd path, readPictureCmd path])
    else (Except.ok Option.none, [albumartCmd path])

theorem readPictureStage_ok (c : ClientModel) (path : String) :
    ∃ r, readPictureStage c path = Except.ok r := by
  unfold readPictureStage
  cases c.readPictureResult path with
  | error e => by_cases h : isNoExist e <;> simp [h]
  | ok r =>
    cases r with
    | none => exact ⟨Option.none, rfl⟩
    | some p => exact ⟨some p, rfl⟩

/-- Claim C8: find_album_art never returns an error to its caller: albumart
is always invoked first; readpicture is invoked exactly when albumart
returned no art or failed with a NoExist error; every other failure of
either command is mapped to Ok(None); successes propagate; so for every
input path the result is Ok(Some data) or Ok(None). -/
theorem find_album_art_never_errors (c : ClientModel) (path : String) :
    (∃ r, (findAlbumArt c path).1 = Except.ok r) ∧
    ((findAlbumArt c path).2 = [albumartCmd path] ∨
      (findAlbumArt c path).2 = [albumartCmd path, readPictureCmd path]) ∧
    ((findAlbumArt c path).2 = [albumartCmd path, readPictureCmd path] ↔
      (c.albumartResult path = Except.ok Option.none ∨
        ∃ e, c.albumartResult path = Except.error e ∧ isNoExist e = true)) ∧
    (∀ v, c.albumartResult path = Except.ok (some v) →
      (findAlbumArt c path).1 = Except.ok (some v)) ∧
    (∀ e, c.albumartResult path = Except.error e → isNoExist e = false →
      (findAlbumArt c path).1 = Except.ok Option.none) := by
  cases ha : c.albumartResult path with
  | ok r =>
    cases r with
    | none =>
      refine ⟨?_, Or.inr (by simp [findAlbumArt, ha]), ?_, ?_, ?_⟩
      · obtain ⟨r, hr⟩ := readPictureStage_ok c path
        exact ⟨r, by simp [findAlbumArt, ha, hr]⟩
      · exact ⟨fun _ => Or.inl rfl, fun _ => by simp [findAlbumArt, ha]⟩
      · intro v hv; simp at hv
      · intro e he; simp at he
    | some v =>
      refine ⟨⟨some v, by simp [findAlbumArt, ha]⟩, Or.inl (by simp [findAlbumArt, ha]), ?_, ?_, ?_⟩
      · constructor
        · intro h
          simp [findAlbumArt, ha] at h
        · intro h
          rcases h with h | ⟨e', he', _⟩
          · simp at h
          · simp at he'
      · intro w hw
        obtain rfl : v = w := by simpa using hw
        simp [findAlbumArt, ha]
      · intro e he; simp at he
  | error e =>
    by_cases hne : isNoExist e
    · refine ⟨?_, Or.inr (by simp [findAlbumArt, ha, hne]), ?_, ?_, ?_⟩
      · obtain ⟨r, hr⟩ := readPictureStage_ok c path
        exact ⟨r, by simp [findAlbumArt, ha, hne, hr]⟩
      · exact ⟨fun _ => Or.inr ⟨e, rfl, hne⟩, fun _ => by simp [findAlbumArt, ha, hne]⟩
      · intro v hv; simp at hv
      · intro e' he'
        obtain rfl : e = e' := by simpa using he'
        intro hfalse
        simp [hfalse] at hne
    · refine ⟨⟨Option.none, by simp [findAlbumArt, ha, hne]⟩,
        Or.inl (by simp [findAlbumArt, ha, hne]), ?_, ?_, ?_⟩
      · constructor
        · intro h
          simp [findAlbumArt, ha, hne] at h
        · intro h
          rcases h with h | ⟨e', he', hno⟩
          · simp at h
          · obtain rfl : e = e' := by simpa using he'
            exact absurd hno hne
      · intro v hv; simp at hv
      · intro e' he' _
        simp [findAlbumArt, ha, hne]

/-- Claim C8 witness: albumart answering with a NoExist failure falls back
to readpicture and yields its art. -/
theorem find_album_art_never_errors_witness :
    (findAlbumArt
      { version := { major := 0, minor := 24, patch := 0 },
        responseOk := fun _ => Except.ok (),
        responseVolume := fun _ => Except.error (MpdError.clientError "unused"),
        responseSongs := fun _ => Except.ok [],
        albumartResult := fun _ =>
          Except.error (MpdError.mpd { code := ErrorCode.noExist, message := "no file" }),
        readPictureResult := fun _ => Except.ok (some [7]) }
      "song.mp3").2 = [albumartCmd "song.mp3", readPictureCmd "song.mp3"] :=
  (find_album_art_never_errors _ "song.mp3").2.2.1.mpr
    (Or.inr ⟨MpdError.mpd { code := ErrorCode.noExist, message := "no file" }, rfl, rfl⟩)

/-- Claim C9: every client operation gated on the server version fails fast
client-side with an UnsupportedMpdVersion error and sends no command over
the connection: get_volume below 0.23.0, consume with the Oneshot value
below 0.24.0, list_playlist_info with a range below 0.24.0, and
save_queue_as_playlist with a save mode below 0.24.0. -/
theorem version_gated_ops_fail_fast (c : ClientModel) :
    (Version.lt c.version { major := 0, minor := 23, patch := 0 } = true →
      getVolume c =
        (Except.error (MpdError.unsupportedMpdVersion "getvol can be used since MPD 0.23.0"), [])) ∧
    (Version.lt c.version { major := 0, minor := 24, patch := 0 } = true →
      consume c OnOffOneshot.oneshot =
        (Except.error (MpdError.unsupportedMpdVersion "consume oneshot can be used since MPD 0.24.0"), [])) ∧
    (∀ (playlist : String) (r : SingleOrRange),
      Version.lt c.version { major := 0, minor := 24, patch := 0 } = true →
      listPlaylistInfo c playlist (some r) =
        (Except.error
          (MpdError.unsupportedMpdVersion "listplaylistinfo with range can only be used since MPD 0.24.0"),
          [])) ∧
    (∀ (name : String) (m : SaveMode),
      Version.lt c.version { major := 0, minor := 24, patch := 0 } = true →
      saveQueueAsPlaylist c name (some m) =
        (Except.error (MpdError.unsupportedMpdVersion "save mode can be used since MPD 0.24.0"), [])) := by
  refine ⟨fun h => ?_, fun h => ?_, fun playlist r h => ?_, fun name m h => ?_⟩
  · simp [getVolume, h]
  · simp [consume, h]
  · simp [listPlaylistInfo, h]
  · simp [saveQueueAsPlaylist, h]

/-- Claim C9 witness: a client connected to MPD 0.22.2 rejects get_volume
client-side without sending anything. -/
theorem version_gated_ops_fail_fast_witness :
    getVolume
      { version := { major := 0, minor := 22, patch := 2 },
        responseOk := fun _ => Except.ok (),
        responseVolume := fun _ => Except.ok 50,
        responseSongs := fun _ => Except.ok [],
        albumartResult := fun _ => Except.ok Option.none,
        readPictureResult := fun _ => Except.ok Option.none } =
      (Except.error (MpdError.unsupportedMpdVersion "getvol can be used since MPD 0.23.0"), []) :=
  (version_gated_ops_fail_fast _).1 (by decide)

/-! ## Status messages (src/ui/mod.rs)

Ui::display_message stores the new message with the current instant;
Ui::render bumps the frame counter, drops a pending message older than five
seconds, and draws the surviving message, if any, on the status bar.
Instants are naturals, in milliseconds. -/

structure StatusMessage where
  message : String
  level : Level
  created : Nat
  deriving DecidableEq, Repr

/-- The parts of the Ui state involved here. -/
structure UiModel where
  statusMessage : Option StatusMessage
  renderedFramesCount : Nat
  deriving DecidableEq, Repr

def fiveSecondsMs : Nat := 5000

/-- Ui::display_message: unconditionally replace the pending message with
the new one, stamped with the current instant. -/
def displayMessage (ui : UiModel) (message : String) (level : Level) (now : Nat) : UiModel :=
  { ui with statusMessage := some { message := message, level := level, created := now } }

/-- Ui::render, restricted to the status-message handling: increment the
rendered-frames counter, clear the pending message when its age exceeds
five seconds, and return the message the status bar displays (the surviving
one, if any). -/
def uiRender (ui : UiModel) (now : Nat) : UiModel × Option StatusMessage :=
  let ui1 : UiModel := { ui with renderedFramesCount := ui.renderedFramesCount + 1 }
  let ui2 : UiModel :=
    if ui1.statusMessage.any (fun m => fiveSecondsMs < now - m.created) then
      { ui1 with statusMessage := Option.none }
    else ui1
  (ui2, ui2.statusMessage)

/-- Claim C10: the pending status message field always holds the most
recently posted message (display_message unconditionally overwrites any
previous one, whatever it was), and at every render a message whose age
exceeds five seconds is cleared and not displayed, while a younger message
is left in place and displayed. -/
theorem status_message_overwrite_and_expiry :
    (∀ (ui : UiModel) (m : String) (l : Level) (t : Nat),
      (displayMessage ui m l t).statusMessage =
        some { message := m, level := l, created := t }) ∧
    (∀ (ui : UiModel) (msg : StatusMessage) (now : Nat),
      ui.statusMessage = some msg → fiveSecondsMs < now - msg.created →
      (uiRender ui now).1.statusMessage = Option.none ∧
        (uiRender ui now).2 = Option.none) ∧
    (∀ (ui : UiModel) (msg : StatusMessage) (now : Nat),
      ui.statusMessage = some msg → ¬fiveSecondsMs < now - msg.created →
      (uiRender ui now).1.statusMessage = some msg ∧
        (uiRender ui now).2 = some msg) ∧
    (∀ (ui : UiModel) (now : Nat),
      (uiRender ui now).1.renderedFramesCount = ui.renderedFramesCount + 1) := by
  refine ⟨fun ui m l t => rfl, fun ui msg now hmsg hold => ?_, fun ui msg now hmsg hyoung => ?_,
    fun ui now => ?_⟩
  · constructor <;> simp [uiRender, hmsg, hold]
  · constructor <;> simp [uiRender, hmsg, hyoung]
  · cases h : ui.statusMessage with
    | none => simp [uiRender, h]
    | some msg =>
      by_cases hage : fiveSecondsMs < now - msg.created <;> simp [uiRender, h, hage]

/-- Claim C10 witness: a 6-second-old message is cleared at render; a
3-second-old message survives and is displayed. -/
theorem status_message_overwrite_and_expiry_witness :
    (uiRender
      { statusMessage := some { message := "old", level := Level.info, created := 1000 },
        renderedFramesCount := 0 } 7001).1.statusMessage = Option.none ∧
    (uiRender
      { statusMessage := some { message := "new", level := Level.info, created := 1000 },
        renderedFramesCount := 0 } 4000).2 =
      some { message := "new", level := Level.info, created := 1000 } :=
  ⟨(status_message_overwrite_and_expiry.2.1 _
      { message := "old", level := Level.info, created := 1000 } 7001 rfl (by decide)).1,
   (status_message_overwrite_and_expiry.2.2.1 _
      { message := "new", level := Level.info, created := 1000 } 4000 rfl (by decide)).2⟩

end Rmpc
